import Mathlib

set_option maxRecDepth 10000

/-! Shallow embedding of the forage-quantium repository.

The repository has two Python source files:
* `task_two_clean_data.py` (Ingestion): reads CSV transaction files, filters rows
  to one product, detects a leading currency symbol once per run, strips it,
  converts prices to integer cents through double-precision arithmetic,
  multiplies by quantity, and writes a `sales,date,region` summary CSV.
* `task_three_visualize.py` (Presentation): reads that summary CSV, re-detects
  the currency symbol, strips it, parses the values, and aggregates sales by
  `(date, region)` for a line chart.

Machine arithmetic is modelled exactly: prices flow through IEEE-754 binary64
(`pandas.to_numeric` parses to the nearest double, numpy `* 100` is a correctly
rounded double multiplication, `.astype(int)` truncates toward zero).  Doubles
are represented as the exact rational value they denote, and rounding to the
nearest double is modelled by `nearestDouble` below (53-bit significand, round
to nearest, ties to even; the program never leaves the normal range, so
overflow and subnormals are not modelled).

Core `Rat` arithmetic (`Rat.add`, `Rat.mul`, ...) is `@[irreducible]`, which
blocks kernel evaluation in `decide`; the development therefore computes with
the reducible constructors `qadd`, `qmul`, ... below, and the bridging lemmas
`qadd_eq`, `qmul_eq`, ... prove each of them equal to the corresponding
standard operation on `ℚ`. -/

namespace ForageQuantium

/-! ## Reducible rational arithmetic -/

/-- Reducible multiplication on `ℚ` (equals `a * b`, see `qmul_eq`). -/
def qmul (a b : ℚ) : ℚ := mkRat (a.num * b.num) (a.den * b.den)

/-- Reducible addition on `ℚ` (equals `a + b`, see `qadd_eq`). -/
def qadd (a b : ℚ) : ℚ := mkRat (a.num * b.den + b.num * a.den) (a.den * b.den)

/-- Reducible division of a rational by a natural number (see `qdivN_eq`). -/
def qdivN (a : ℚ) (d : ℕ) : ℚ := mkRat a.num (a.den * d)

/-- Reducible embedding of a natural number into `ℚ` (see `qnat_eq`). -/
def qnat (n : ℕ) : ℚ := mkRat n 1

/-- Reducible embedding of an integer into `ℚ` (see `qint_eq`). -/
def qint (z : ℤ) : ℚ := mkRat z 1

/-- Reducible negation on `ℚ` (equals `-a`, see `qneg_eq`). -/
def qneg (a : ℚ) : ℚ := mkRat (-a.num) a.den

/-- Reducible order test on `ℚ` (equals `a ≤ b`, see `qleB_iff`). -/
def qleB (a b : ℚ) : Bool := a.num * (b.den : ℤ) ≤ b.num * (a.den : ℤ)

/-- Reducible strict order test on `ℚ` (equals `a < b`, see `qltB_iff`). -/
def qltB (a b : ℚ) : Bool := a.num * (b.den : ℤ) < b.num * (a.den : ℤ)

/-- Reducible absolute value on `ℚ` (equals `|a|`, see `qabs_eq`). -/
def qabs (a : ℚ) : ℚ := if qltB a 0 then qneg a else a

/-- Reducible sum of a list of rationals (equals `l.sum`, see `qsum_eq`). -/
def qsum : List ℚ → ℚ := List.foldr qadd 0

theorem qmul_eq (a b : ℚ) : qmul a b = a * b := by
  rw [qmul, Rat.mul_def, Rat.normalize_eq_mkRat]

theorem qadd_eq (a b : ℚ) : qadd a b = a + b := (Rat.add_def' a b).symm

theorem qnat_eq (n : ℕ) : qnat n = (n : ℚ) := by
  rw [qnat, Rat.mkRat_one]
  norm_cast

theorem qint_eq (z : ℤ) : qint z = (z : ℚ) := by
  rw [qint, Rat.mkRat_one]

theorem qneg_eq (a : ℚ) : qneg a = -a := by
  rw [qneg, ← Rat.neg_mkRat, Rat.mkRat_self]

theorem qdivN_eq (a : ℚ) (d : ℕ) : qdivN a d = a / (d : ℚ) := by
  rcases eq_or_ne d 0 with rfl | hd
  · simp [qdivN, Rat.mkRat_zero]
  · rw [qdivN, Rat.mkRat_eq_div]
    push_cast
    rw [div_mul_eq_div_div, Rat.num_div_den]

theorem qleB_iff (a b : ℚ) : qleB a b = true ↔ a ≤ b := by
  rw [qleB, decide_eq_true_eq]
  rw [← Rat.num_divInt_den a, ← Rat.num_divInt_den b,
    Rat.divInt_le_divInt (by exact_mod_cast a.pos) (by exact_mod_cast b.pos)]
  simp [Rat.num_divInt_den]

theorem qltB_iff (a b : ℚ) : qltB a b = true ↔ a < b := by
  rw [qltB, decide_eq_true_eq]
  constructor
  · intro h
    rcases lt_or_ge a b with h' | h'
    · exact h'
    · exact absurd ((qleB_iff b a).2 h') (by simp [qleB]; omega)
  · intro h
    rcases lt_or_ge (a.num * (b.den : ℤ)) (b.num * (a.den : ℤ)) with h' | h'
    · exact h'
    · exact absurd ((qleB_iff b a).1 (by simp [qleB]; omega)) (not_le.2 h)

theorem qabs_eq (a : ℚ) : qabs a = |a| := by
  rw [qabs]
  split
  · next h =>
    rw [qneg_eq, abs_of_neg]
    have := (qltB_iff a 0).1 h
    simpa using this
  · next h =>
    rw [abs_of_nonneg]
    by_contra hneg
    exact h ((qltB_iff a 0).2 (not_le.1 hneg))

theorem qsum_eq (l : List ℚ) : qsum l = l.sum := by
  induction l with
  | nil => rfl
  | cons x xs ih =>
    simp only [qsum, List.foldr_cons, List.sum_cons]
    rw [qadd_eq]
    simp only [qsum] at ih
    rw [ih]

/-! ## IEEE-754 binary64 model

A finite double is identified with the exact rational value it denotes.
`nearestDouble x` is the double nearest to `x` under the default rounding mode
(round to nearest, ties to even) for the normal range. -/

/-- Fuel-driven floor of the base-2 logarithm of a natural number
    (`nlog2Aux f n` equals `⌊log₂ n⌋` for `n ≥ 1` whenever `f ≥ n`). -/
def nlog2Aux : ℕ → ℕ → ℕ
  | 0, _ => 0
  | f + 1, n => if n ≥ 2 then nlog2Aux f (n / 2) + 1 else 0

/-- Floor of the base-2 logarithm of a natural number (0 at 0). -/
def nlog2 (n : ℕ) : ℕ := nlog2Aux n n

/-- Round a rational to the nearest integer, ties to even.  `x.num / x.den`
    with `/` as Euclidean division is `⌊x⌋` (`Rat.floor_def`), `r` is the
    numerator of the fractional part, and comparing `2 * r` with the
    denominator compares the fractional part with `1/2`. -/
def rhe (x : ℚ) : ℤ :=
  let f := x.num / x.den
  let r := x.num - f * x.den
  if 2 * r < (x.den : ℤ) then f
  else if (x.den : ℤ) < 2 * r then f + 1
  else if f % 2 = 0 then f else f + 1

/-- Multiply a rational by an integer power of two. -/
def mulPow2 (x : ℚ) (k : ℤ) : ℚ :=
  if 0 ≤ k then qmul x (qnat (2 ^ k.toNat)) else qdivN x (2 ^ (-k).toNat)

/-- Floor of the base-2 logarithm of a positive rational: the candidate from
    the numerator and denominator logarithms is off by at most one and is
    corrected by direct comparison. -/
def qlog2 (x : ℚ) : ℤ :=
  let c : ℤ := (nlog2 x.num.natAbs : ℤ) - (nlog2 x.den : ℤ)
  if qleB (mulPow2 1 (c + 1)) x then c + 1
  else if qltB x (mulPow2 1 c) then c - 1
  else c

/-- The binary64 value nearest to `x`: scale `x` so that it lies in
    `[2^52, 2^53)`, round to an integer significand with ties to even, and
    scale back.  Exact for the whole normal range of binary64. -/
def nearestDouble (x : ℚ) : ℚ :=
  if x.num = 0 then 0
  else mulPow2 (qint (rhe (mulPow2 x (52 - qlog2 (qabs x))))) (qlog2 (qabs x) - 52)

/-- Truncation toward zero, the conversion performed by numpy
    `.astype(int)` on a float64 value. -/
def truncQ (x : ℚ) : ℤ :=
  if 0 ≤ x.num then x.num / x.den else -((-x.num) / x.den)

theorem truncQ_eq (x : ℚ) : truncQ x = if 0 ≤ x then ⌊x⌋ else -⌊-x⌋ := by
  rw [truncQ, Rat.floor_def]
  have hnum : (-x).num = -x.num := Rat.neg_num x
  have hden : (-x).den = x.den := Rat.neg_den x
  rw [show ⌊-x⌋ = (-x).num / ((-x).den : ℤ) from Rat.floor_def, hnum, hden]
  congr 1
  simp [Rat.num_nonneg]

/-! ## Decimal string parsing

`pandas.to_numeric(s, errors='coerce')` parses a plain decimal literal
`digits ['.' digits]` to the nearest double and yields NaN on anything else
(modelled as `none`; signs, exponents and surrounding whitespace do not occur
in this program's data and are not modelled). -/

/-- Numeric value of a list of decimal digit characters. -/
def digitsToNat (l : List Char) : ℕ := l.foldl (fun a c => 10 * a + (c.toNat - 48)) 0

/-- Exact rational value of a decimal literal `digits ['.' digits]`;
    `none` when the text is not of that shape. -/
def decParseList (cs : List Char) : Option ℚ :=
  let ip := cs.takeWhile Char.isDigit
  if ip.isEmpty then none
  else
    match cs.dropWhile Char.isDigit with
    | [] => some (qnat (digitsToNat ip))
    | '.' :: fp =>
      if fp.all Char.isDigit then
        some (qadd (qnat (digitsToNat ip)) (qdivN (qnat (digitsToNat fp)) (10 ^ fp.length)))
      else none
    | _ => none

/-- Exact rational value of a decimal string. -/
def decParse (s : String) : Option ℚ := decParseList s.toList

/-- `pandas.to_numeric(s, errors='coerce')`: parse to the nearest double,
    `none` for NaN. -/
def toNumeric (s : String) : Option ℚ := (decParse s).map nearestDouble

/-- `pd.to_numeric(..., errors='coerce').fillna(0)` applied to one string. -/
def toNumeric0 (s : String) : ℚ := (toNumeric s).getD 0

/-! ## Ingestion (`task_two_clean_data.py`, `process_sales_data`)

A raw CSV file either fails to read (empty file: `pandas.errors.EmptyDataError`,
caught per file at line 125) or yields a list of rows.  A quantity cell is a
number, missing (NaN, later `fillna(0)`), or a non-numeric string — in the last
case `sales_cents / 100.0` raises `TypeError` on the string element and the
per-file `except Exception` handler at line 129 skips the whole file.  Price
cells are strings or missing (the data this program is written for always
carries a currency symbol, so the price column reads as strings). -/

/-- Configuration keys consumed by `process_sales_data` (lines 35-37);
    `data_directory` only selects the files passed to the model. -/
structure Config where
  productFilter : String
  defaultSymbol : Char
deriving DecidableEq

/-- A CSV `quantity` cell. -/
inductive Qty where
  | num (n : ℤ)
  | missing
  | str (s : String)
deriving DecidableEq

/-- Whether a quantity cell holds a non-numeric string. -/
def Qty.isStr : Qty → Bool
  | .str _ => true
  | _ => false

/-- Numeric value of a quantity cell after `fillna(0)` (line 110); the
    string case never reaches arithmetic because the file fails first. -/
def qtyVal : Qty → ℤ
  | .num n => n
  | _ => 0

/-- One row of a raw transaction CSV file. -/
structure RawRow where
  product : String
  price : Option String
  quantity : Qty
  date : String
  region : String
deriving DecidableEq

/-- A raw CSV file: empty (read fails) or a list of rows. -/
inductive RawFile where
  | empty
  | valid (rows : List RawRow)
deriving DecidableEq

/-- The rows a file contributes when read successfully. -/
def RawFile.rowsOf : RawFile → List RawRow
  | .empty => []
  | .valid rs => rs

/-- One row of the summary artifact before currency formatting; the code
    stores `sales_cents / 100.0` (line 114), kept here as the exact cents. -/
structure SRow where
  salesCents : ℤ
  date : String
  region : String
deriving DecidableEq

/-- First character of a string (only used on non-empty strings). -/
def firstChar (s : String) : Char := s.toList.headD '?'

/-- `df[df['product'] == product_filter]` (line 67). -/
def matchedRows (cfg : Config) (rows : List RawRow) : List RawRow :=
  rows.filter fun r => r.product == cfg.productFilter

/-- Symbol detection on the first file with matching rows (lines 79-89):
    `first` is the first non-null price of the filtered frame; a non-empty
    value makes its first character the symbol with slice index 1, otherwise
    the default symbol is used with slice index 0. -/
def detectSymbol (first : Option String) (dflt : Char) : Char × ℕ :=
  match first with
  | some s => if s.length > 0 then (firstChar s, 1) else (dflt, 0)
  | none => (dflt, 0)

/-- Symbol and slice index used for the current file: detection when no
    symbol is set yet, otherwise the re-derivation of lines 90-95, which
    slices only when the stored symbol differs from the default. -/
def detFor (cfg : Config) (sym : Option Char) (rows : List RawRow) : Char × ℕ :=
  match sym with
  | none => detectSymbol ((matchedRows cfg rows).filterMap (·.price)).head? cfg.defaultSymbol
  | some c => (c, if c ≠ cfg.defaultSymbol then 1 else 0)

/-- `price.astype(str).str.slice(slice_start_index)` for one cell
    (lines 98-102); a missing price becomes the string `"nan"`. -/
def priceCleanStr (slice : ℕ) (p : Option String) : String :=
  String.mk ((p.getD "nan").toList.drop slice)

/-- Lines 106-107 for one cell: parse to double (`errors='coerce'`,
    `fillna(0)`), multiply by 100 in double arithmetic, truncate to int. -/
def priceCents (s : String) : ℤ := truncQ (nearestDouble (qmul (toNumeric0 s) 100))

/-- Specification §8 function: cents for one price string times quantity
    (lines 106-111; the cents-by-quantity multiplication is exact int64). -/
def total_cents (p : String) (q : ℤ) : ℤ := priceCents p * q

/-- One summary row built from a matched raw row at a given slice index
    (lines 98-121). -/
def mkSRow (slice : ℕ) (r : RawRow) : SRow :=
  ⟨priceCents (priceCleanStr slice r.price) * qtyVal r.quantity, r.date, r.region⟩

/-- One iteration of the file loop (lines 61-132): the updated
    `currency_symbol` state and either the file's summary rows or a caught
    per-file failure.  A file with no matching rows contributes nothing
    (`continue`, line 71) and leaves the state untouched; detection state is
    updated before a quantity failure is raised, as in the source. -/
def processFile (cfg : Config) (sym : Option Char) : RawFile → Option Char × Except Unit (List SRow)
  | .empty => (sym, .error ())
  | .valid rows =>
    if (matchedRows cfg rows).isEmpty then (sym, .ok [])
    else
      let det := detFor cfg sym rows
      if (matchedRows cfg rows).any fun r => r.quantity.isStr then (some det.1, .error ())
      else (some det.1, .ok ((matchedRows cfg rows).map (mkSRow det.2)))

/-- Fold step over files: failures are skipped, successes are appended to
    `all_filtered_data` (lines 123, 125-132, 139). -/
def ingestStep (cfg : Config) (st : Option Char × List SRow) (f : RawFile) : Option Char × List SRow :=
  ((processFile cfg st.1 f).1, st.2 ++ ((processFile cfg st.1 f).2.toOption.getD []))

/-- The whole file loop, with initial state `currency_symbol = None`. -/
def ingestRun (cfg : Config) (files : List RawFile) : Option Char × List SRow :=
  files.foldl (ingestStep cfg) (none, [])

/-- The symbol attached to the output (lines 144-145): the detected symbol,
    or the configured default when none was detected. -/
def runSymbol (cfg : Config) (files : List RawFile) : Char :=
  (ingestRun cfg files).1.getD cfg.defaultSymbol

/-- Two-digit zero-padded decimal rendering of a value below 100. -/
def pad2 (n : ℕ) : String := if n < 10 then "0" ++ toString n else toString n

/-- Python `f"{x:.2f}"` on the exact value of a double: correctly rounded to
    two decimals, ties to even (the exact value of a double is never a tie at
    two decimals, so the tie rule is unobservable). -/
def fmt2 (x : ℚ) : String :=
  let c := rhe (qmul x 100)
  (if c < 0 then "-" else "") ++ toString (c.natAbs / 100) ++ "." ++ pad2 (c.natAbs % 100)

/-- One row of the written artifact (line 153, header `sales,date,region`). -/
structure OutRow where
  sales : String
  date : String
  region : String
deriving DecidableEq

/-- Lines 114 and 148-150 for one summary row: `sales_cents / 100.0` in
    double arithmetic, then `f"{currency_symbol}{x:.2f}"`. -/
def formatRow (c : Char) (s : SRow) : OutRow :=
  ⟨String.singleton c ++ fmt2 (nearestDouble (qdivN (qint s.salesCents) 100)), s.date, s.region⟩

/-- `process_sales_data` end to end: `None` when no CSV files exist
    (lines 54-59) or when no data was extracted (lines 134-137, no artifact
    written); otherwise the rows of the written artifact (lines 139-153). -/
def processSalesData (cfg : Config) (files : List RawFile) : Option (List OutRow) :=
  if files.isEmpty then none
  else if (ingestRun cfg files).2.isEmpty then none
  else some ((ingestRun cfg files).2.map (formatRow (runSymbol cfg files)))

/-! ## Presentation (`task_three_visualize.py`)

The artifact file is missing, a zero-byte file (`pd.read_csv` raises
`pandas.errors.EmptyDataError`, uncaught here), or a table whose row list may
be empty (header only, `df.empty`). -/

instance {ε α : Type} [DecidableEq ε] [DecidableEq α] : DecidableEq (Except ε α) := fun x y =>
  match x, y with
  | .ok a, .ok b =>
    if h : a = b then .isTrue (by rw [h]) else .isFalse (by simp [h])
  | .error a, .error b =>
    if h : a = b then .isTrue (by rw [h]) else .isFalse (by simp [h])
  | .ok _, .error _ => .isFalse (by simp)
  | .error _, .ok _ => .isFalse (by simp)

/-- `DEFAULT_CURRENCY_SYMBOL` (line 9). -/
def defaultCurrencySymbol : Char := '$'

/-- One row of the artifact as read back. -/
structure ARow where
  sales : String
  date : String
  region : String
deriving DecidableEq

/-- The artifact file as seen by `load_and_clean_data`. -/
inductive ArtifactFile where
  | missing
  | emptyBytes
  | table (rows : List ARow)
deriving DecidableEq

/-- One cleaned presentation row: `Sales_Value` with `date` and `region`
    (`date` kept as text; `pd.to_datetime` renaming of the value is not
    observable by the claims). -/
structure CRow where
  value : ℚ
  date : String
  region : String
deriving DecidableEq

/-- Symbol detection of lines 29-37: the first sales string detects a symbol
    only when its length exceeds 1; otherwise the default symbol with no
    slicing. -/
def detectSymbolPresentation (first : Option String) (dflt : Char) : Char × ℕ :=
  match first with
  | some s => if s.length > 1 then (firstChar s, 1) else (dflt, 0)
  | none => (dflt, 0)

/-- `load_and_clean_data` (lines 12-50): missing file and header-only file
    yield the empty frame with the default symbol; a zero-byte file raises
    inside `pd.read_csv`; otherwise detect, slice, and parse every sales
    value with failures coerced to 0. -/
def loadAndCleanData : ArtifactFile → Except Unit (List CRow × Char)
  | .missing => .ok ([], defaultCurrencySymbol)
  | .emptyBytes => .error ()
  | .table rows =>
    if rows.isEmpty then .ok ([], defaultCurrencySymbol)
    else
      let det := detectSymbolPresentation ((rows.map (·.sales)).head?) defaultCurrencySymbol
      .ok (rows.map fun r =>
        ⟨toNumeric0 (String.mk (r.sales.toList.drop det.2)), r.date, r.region⟩, det.1)

/-- Grouping key of a cleaned row. -/
def keyOf (r : CRow) : String × String := (r.date, r.region)

/-- The distinct `(date, region)` keys of the cleaned frame. -/
def keysOf (rows : List CRow) : List (String × String) := (rows.map keyOf).dedup

/-- Sum of the sales values of the rows with a given key. -/
def sumSales (rows : List CRow) (k : String × String) : ℚ :=
  qsum ((rows.filter fun r => decide (keyOf r = k)).map (·.value))

/-- `df.groupby(['date','region'])['Sales_Value'].sum()` (line 56): one total
    per distinct key (pandas orders keys by sorting; key order is not
    relevant to any claim and first-occurrence order is used here). -/
def dailySales (rows : List CRow) : List ((String × String) × ℚ) :=
  (keysOf rows).map fun k => (k, sumSales rows k)

/-! ## Claim theorems -/

/-- The default configuration of the repository:
    `product_filter = "pink morsel"`, `default_currency_symbol = '$'`. -/
def cfgD : Config := ⟨"pink morsel", '$'⟩

/-- Claim C1 as stated: the total in cents equals `round (p * 100) * q` for
    one consistently applied dollars-to-cents rounding rule, quantified here
    over every function fixing the integers (the minimal property of any
    rounding rule). -/
def claimC1 : Prop :=
  ∃ R : ℚ → ℤ, (∀ n : ℤ, R (n : ℚ) = n) ∧
    ∀ (p : String) (v : ℚ) (q : ℤ), decParse p = some v → 0 ≤ q →
      total_cents p q = R (v * 100) * q

/-- Claim C1, counterexample: no rounding rule applied to the exact
    `p * 100` reproduces the code.  At `p = "0.29"`, `q = 1` the exact
    `p * 100` is the integer 29, which every rounding rule fixes, yet the
    code computes 28 cents (the double product `0.29 * 100` is just below 29
    and `.astype(int)` truncates). -/
theorem c1_counterexample : ¬ claimC1 := by
  rintro ⟨R, hfix, h⟩
  have h29 := h "0.29" (mkRat 29 100) 1 (by decide) (by decide)
  have hval : (mkRat 29 100 : ℚ) * 100 = ((29 : ℤ) : ℚ) := by
    rw [Rat.mkRat_eq_div]
    norm_num
  rw [hval, hfix 29, mul_one] at h29
  have h28 : total_cents "0.29" 1 = 28 := by decide
  rw [h28] at h29
  exact absurd h29 (by decide)

/-- Claim C1, amended: for every valid decimal price string `p` with exact
    value `v` and every quantity `q ≥ 0`, the total in cents is
    `trunc (fl (fl v * 100)) * q` — truncation toward zero of the
    double-precision product — which is not a rounding of the exact
    `v * 100`: `p = "0.29"` gives 28 cents per unit although `v * 100 = 29`,
    while exactly representable cases such as `"3.00"` are unaffected. -/
theorem c1_amended :
    (∀ (p : String) (v : ℚ) (q : ℤ), decParse p = some v → 0 ≤ q →
      total_cents p q = truncQ (nearestDouble (qmul (nearestDouble v) 100)) * q) ∧
    total_cents "0.29" 1 = 28 ∧ total_cents "3.00" 5 = 1500 := by
  refine ⟨?_, by decide, by decide⟩
  intro p v q hp _
  simp [total_cents, priceCents, toNumeric0, toNumeric, hp]

/-- Claim C1, witness for the amended theorem at `p = "0.29"`, `q = 1`. -/
theorem c1_amended_witness :
    total_cents "0.29" 1 = truncQ (nearestDouble (qmul (nearestDouble (mkRat 29 100)) 100)) * 1 :=
  c1_amended.1 "0.29" (mkRat 29 100) 1 (by decide) (by decide)

/-- Claim C2, evaluation at the failing input: with default symbol `'$'` and
    two files whose prices are `"$3.00"` and `"$2.00"`, the first file is
    stripped (detection), but the second file is not — `detFor` re-derives
    the slice index per file as `symbol ≠ default`, which is 0 because the
    detected `'$'` equals the default — so the second row's price fails to
    parse and its total is `$0.00` instead of the claimed `$2.00`. -/
theorem c2_eval :
    processSalesData cfgD
      [.valid [⟨"pink morsel", some "$3.00", .num 1, "2020-01-01", "north"⟩],
       .valid [⟨"pink morsel", some "$2.00", .num 1, "2020-01-01", "north"⟩]] =
      some [⟨"$3.00", "2020-01-01", "north"⟩, ⟨"$0.00", "2020-01-01", "north"⟩] ∧
    detFor cfgD (some '$') [⟨"pink morsel", some "$2.00", .num 1, "2020-01-01", "north"⟩] =
      ('$', 0) :=
  ⟨by decide, by decide⟩

/-- Claim C3, counterexample: on a first string of length exactly 1 the two
    detections disagree — Ingestion detects `'X'` and strips one character,
    Presentation falls back to the default symbol and strips nothing. -/
theorem c3_counterexample :
    detectSymbol (some "X") '$' ≠ detectSymbolPresentation (some "X") '$' := by decide

/-- Claim C3, amended: the two detections agree on a missing first value and
    on every first string of length other than 1; they differ exactly on
    length-1 strings, where Ingestion takes the character as the symbol and
    strips it while Presentation keeps the default and strips nothing. -/
theorem c3_amended :
    (∀ d : Char, detectSymbol none d = detectSymbolPresentation none d) ∧
    (∀ (s : String) (d : Char), s.length ≠ 1 →
      detectSymbol (some s) d = detectSymbolPresentation (some s) d) ∧
    detectSymbol (some "$") '$' = ('$', 1) ∧
    detectSymbolPresentation (some "$") '$' = ('$', 0) := by
  refine ⟨fun d => rfl, ?_, by decide, by decide⟩
  intro s d hs
  unfold detectSymbol detectSymbolPresentation
  by_cases h0 : s.length = 0
  · simp [h0]
  · have h0' : s.length > 0 := by omega
    have h1 : s.length > 1 := by omega
    simp [h0', h1]

/-- Claim C3, witness for the amended theorem at the string `"ab"`. -/
theorem c3_amended_witness :
    detectSymbol (some "ab") '$' = detectSymbolPresentation (some "ab") '$' :=
  c3_amended.2.1 "ab" '$' (by decide)

/-- Claim C4: when no matched quantity is a malformed string, a file never
    fails — every matched row is kept in the output (one summary row per
    matched row, in order), and any row whose sliced price string fails to
    parse contributes exactly zero cents. -/
theorem c4 (cfg : Config) (sym : Option Char) (rows : List RawRow)
    (hq : ∀ r ∈ matchedRows cfg rows, r.quantity.isStr = false) :
    ∃ slice : ℕ, (processFile cfg sym (.valid rows)).2 =
        .ok ((matchedRows cfg rows).map (mkSRow slice)) ∧
      ∀ r : RawRow, decParse (priceCleanStr slice r.price) = none →
        (mkSRow slice r).salesCents = 0 := by
  have hz : ∀ (slice : ℕ) (r : RawRow), decParse (priceCleanStr slice r.price) = none →
      (mkSRow slice r).salesCents = 0 := by
    intro slice r h
    show priceCents (priceCleanStr slice r.price) * qtyVal r.quantity = 0
    have hpc : priceCents (priceCleanStr slice r.price) = 0 := by
      unfold priceCents toNumeric0 toNumeric
      rw [h]
      rfl
    rw [hpc, zero_mul]
  refine ⟨(detFor cfg sym rows).2, ?_, hz _⟩
  unfold processFile
  by_cases hm : (matchedRows cfg rows).isEmpty
  · have hnil : matchedRows cfg rows = [] := by
      rwa [List.isEmpty_iff] at hm
    simp [hm, hnil]
  · have hany : ((matchedRows cfg rows).any fun r => r.quantity.isStr) = false := by
      rw [List.any_eq_false]
      intro r hr
      simp [hq r hr]
    simp [hm, hany]

/-- Claim C4, witness: a single row priced `"$"` (symbol only) is kept with
    zero contribution. -/
theorem c4_witness : ∃ slice : ℕ,
    (processFile cfgD none
        (.valid [⟨"pink morsel", some "$", .num 3, "2020-01-01", "north"⟩])).2 =
      .ok ((matchedRows cfgD [⟨"pink morsel", some "$", .num 3, "2020-01-01", "north"⟩]).map
        (mkSRow slice)) ∧
    ∀ r : RawRow, decParse (priceCleanStr slice r.price) = none →
      (mkSRow slice r).salesCents = 0 :=
  c4 cfgD none _ (by decide)

/-- Claim C5: a run in which no row of any file matches the product filter
    (in particular a run with no files) produces no output artifact; the
    model returns `none`, never an exception. -/
theorem c5 (cfg : Config) (files : List RawFile)
    (h : ∀ f ∈ files, ∀ r ∈ f.rowsOf, ¬ r.product = cfg.productFilter) :
    processSalesData cfg files = none := by
  have key : ∀ fs : List RawFile,
      (∀ f ∈ fs, ∀ r ∈ f.rowsOf, ¬ r.product = cfg.productFilter) →
      ∀ st : Option Char × List SRow, (fs.foldl (ingestStep cfg) st).2 = st.2 := by
    intro fs
    induction fs with
    | nil => intro _ st; rfl
    | cons f fs ih =>
      intro hh st
      rw [List.foldl_cons, ih (fun g hg => hh g (List.mem_cons_of_mem f hg))]
      cases f with
      | empty => simp [ingestStep, processFile, Except.toOption]
      | valid rows =>
        have hm : matchedRows cfg rows = [] := by
          rw [matchedRows, List.filter_eq_nil_iff]
          intro r hr
          have hne := hh (.valid rows) (List.mem_cons_self _ _) r hr
          simp [hne]
        simp [ingestStep, processFile, hm, Except.toOption]
  rw [processSalesData]
  by_cases he : files.isEmpty
  · simp [he]
  · have h2 : (ingestRun cfg files).2 = [] := key files h (none, [])
    simp [he, h2]

/-- Claim C5, witness: an empty file plus a file holding only a `"choc"` row
    under the `"pink morsel"` filter produce no output. -/
theorem c5_witness :
    processSalesData cfgD
      [.empty, .valid [⟨"choc", some "$1.00", .num 1, "2020-01-01", "north"⟩]] = none :=
  c5 cfgD _ (by decide)

/-- Claim C6: the aggregation produces exactly one total per distinct
    `(date, region)` key (the listed keys are exactly the keys occurring in
    the cleaned rows, without duplicates) and each total is the sum of the
    sales values sharing that key; concretely, an artifact with `"$15.00"`
    and `"$6.00"` for the same date and region loads, cleans, and aggregates
    to the single point `21`. -/
theorem c6 :
    (∀ rows : List CRow, ((dailySales rows).map Prod.fst).Nodup ∧
      ∀ p ∈ dailySales rows, p.2 = sumSales rows p.1 ∧ p.1 ∈ rows.map keyOf) ∧
    loadAndCleanData
        (.table [⟨"$15.00", "2020-01-01", "north"⟩, ⟨"$6.00", "2020-01-01", "north"⟩]) =
      .ok ([⟨15, "2020-01-01", "north"⟩, ⟨6, "2020-01-01", "north"⟩], '$') ∧
    dailySales [⟨15, "2020-01-01", "north"⟩, ⟨6, "2020-01-01", "north"⟩] =
      [(("2020-01-01", "north"), 21)] := by
  refine ⟨?_, by decide, by decide⟩
  intro rows
  constructor
  · have hfst : (dailySales rows).map Prod.fst = keysOf rows := by
      simp [dailySales, List.map_map, Function.comp_def]
    rw [hfst, keysOf]
    exact List.nodup_dedup _
  · intro p hp
    obtain ⟨k, hk, rfl⟩ := List.mem_map.1 hp
    exact ⟨rfl, List.mem_dedup.1 hk⟩

/-- Claim C6, witness at a one-row cleaned frame and its aggregation point. -/
theorem c6_witness :
    ((("2020-01-01", "north"), (15 : ℚ)) : (String × String) × ℚ).2 =
        sumSales [⟨15, "2020-01-01", "north"⟩] ("2020-01-01", "north") ∧
      (("2020-01-01", "north") : String × String) ∈
        [(⟨15, "2020-01-01", "north"⟩ : CRow)].map keyOf :=
  (c6.1 [⟨15, "2020-01-01", "north"⟩]).2 (("2020-01-01", "north"), 15) (by decide)

/-- Claim C7: every row of a written artifact carries a sales string equal to
    the run's currency symbol (the detected symbol, or the configured default
    when none was detected — `runSymbol`) followed by the row's total
    rendered by the fixed two-decimal format. -/
theorem c7 (cfg : Config) (files : List RawFile) (l : List OutRow)
    (h : processSalesData cfg files = some l) :
    ∀ r ∈ l, ∃ s : SRow, r = formatRow (runSymbol cfg files) s ∧
      r.sales = String.singleton (runSymbol cfg files) ++
        fmt2 (nearestDouble (qdivN (qint s.salesCents) 100)) := by
  intro r hr
  rw [processSalesData] at h
  split at h
  · exact absurd h (by simp)
  · split at h
    · exact absurd h (by simp)
    · obtain rfl : ((ingestRun cfg files).2.map (formatRow (runSymbol cfg files))) = l :=
        Option.some.inj h
      obtain ⟨s, _, rfl⟩ := List.mem_map.1 hr
      exact ⟨s, rfl, rfl⟩

/-- Claim C7, witness: the single output row of a one-file run is the
    formatted image of a summary row under the run symbol `'$'`. -/
theorem c7_witness : ∃ s : SRow,
    (⟨"$15.00", "2020-01-01", "north"⟩ : OutRow) =
      formatRow (runSymbol cfgD
        [.valid [⟨"pink morsel", some "$3.00", .num 5, "2020-01-01", "north"⟩]]) s ∧
    (⟨"$15.00", "2020-01-01", "north"⟩ : OutRow).sales =
      String.singleton (runSymbol cfgD
        [.valid [⟨"pink morsel", some "$3.00", .num 5, "2020-01-01", "north"⟩]]) ++
        fmt2 (nearestDouble (qdivN (qint s.salesCents) 100)) :=
  c7 cfgD
    [.valid [⟨"pink morsel", some "$3.00", .num 5, "2020-01-01", "north"⟩]]
    [⟨"$15.00", "2020-01-01", "north"⟩] (by decide)
    ⟨"$15.00", "2020-01-01", "north"⟩ (by decide)

/-- Claim C8: adding an empty file to a directory with one valid file, on
    either side, leaves the produced aggregate output unchanged — the
    per-file handler skips the empty file without touching the accumulated
    rows or the detection state. -/
theorem c8 (cfg : Config) (rows : List RawRow) :
    processSalesData cfg [.valid rows, .empty] = processSalesData cfg [.valid rows] ∧
    processSalesData cfg [.empty, .valid rows] = processSalesData cfg [.valid rows] := by
  constructor <;>
    simp [processSalesData, runSymbol, ingestRun, ingestStep, processFile, Except.toOption]

/-- Claim C9 as stated: a missing artifact, a zero-byte artifact, and a
    header-only artifact all load as the empty dataset with the default
    symbol instead of raising. -/
def claimC9 : Prop :=
  ∀ f : ArtifactFile, f = .missing ∨ f = .emptyBytes ∨ f = .table [] →
    loadAndCleanData f = .ok ([], defaultCurrencySymbol)

/-- Claim C9, counterexample: a zero-byte artifact file makes
    `pd.read_csv` raise `EmptyDataError`, which `load_and_clean_data` does
    not catch (Ingestion catches it per file; Presentation has no handler),
    so loading fails instead of returning the empty dataset. -/
theorem c9_counterexample : ¬ claimC9 := fun h =>
  absurd (h .emptyBytes (Or.inr (Or.inl rfl))) (by decide)

/-- Claim C9, amended: a missing artifact file and an artifact with a header
    but no data rows degrade to the empty dataset with the default symbol;
    a zero-byte artifact file, however, raises inside `pd.read_csv`. -/
theorem c9_amended :
    loadAndCleanData .missing = .ok ([], defaultCurrencySymbol) ∧
    loadAndCleanData (.table []) = .ok ([], defaultCurrencySymbol) ∧
    loadAndCleanData .emptyBytes = .error () :=
  ⟨rfl, rfl, rfl⟩

/-- Claim C10: a file containing a matching row whose quantity is a
    non-numeric string fails as a whole — the per-file handler receives the
    error and the accumulator is left unchanged, so none of that file's rows
    reach the output — while a missing quantity is merely coerced to zero
    per value. -/
theorem c10 (cfg : Config) (st : Option Char × List SRow) (rows : List RawRow)
    (h : ∃ r ∈ matchedRows cfg rows, r.quantity.isStr = true) :
    (processFile cfg st.1 (.valid rows)).2 = .error () ∧
    (ingestStep cfg st (.valid rows)).2 = st.2 ∧
    qtyVal Qty.missing = 0 := by
  obtain ⟨r, hr, hs⟩ := h
  have hm : (matchedRows cfg rows).isEmpty = false := by
    cases hmm : matchedRows cfg rows with
    | nil => rw [hmm] at hr; cases hr
    | cons a l => rfl
  have hany : ((matchedRows cfg rows).any fun r => r.quantity.isStr) = true :=
    List.any_eq_true.2 ⟨r, hr, hs⟩
  have herr : (processFile cfg st.1 (.valid rows)).2 = .error () := by
    unfold processFile
    simp [hm, hany]
  refine ⟨herr, ?_, rfl⟩
  rw [ingestStep, herr]
  simp [Except.toOption]

/-- Claim C10, witness: one matching row with quantity text `"two"` makes
    the file fail and contribute nothing. -/
theorem c10_witness :
    (processFile cfgD ((none, []) : Option Char × List SRow).1
        (.valid [⟨"pink morsel", some "$2.00", .str "two", "2020-01-01", "north"⟩])).2 =
      .error () ∧
    (ingestStep cfgD ((none, []) : Option Char × List SRow)
        (.valid [⟨"pink morsel", some "$2.00", .str "two", "2020-01-01", "north"⟩])).2 =
      ((none, []) : Option Char × List SRow).2 ∧
    qtyVal Qty.missing = 0 :=
  c10 cfgD ((none, []) : Option Char × List SRow) _ (by decide)

end ForageQuantium
